import Mathlib

/-!
Verification of `type.go` from gocipe/graphql: a shallow embedding of the
reflection-driven GraphQL schema generation pass (scalar field mapping,
filter-tag extraction, relationship field wiring), together with theorems
settling the specification claims.
-/

set_option autoImplicit false

namespace GocipeGraphql

/-- The subset of `reflect.Kind` values that the code discriminates on. -/
inductive Kind where
  | kstring | kbool
  | kint | kint8 | kint16 | kint32 | kint64
  | kuint | kuint8 | kuint16 | kuint32 | kuint64
  | kfloat32 | kfloat64
  | kstruct | kslice
  | kptr | kmap | kinterfaceK | kchan | kfunc
  deriving DecidableEq, Repr

/-- A `reflect.StructField`: its name, the kind / package path / type name of
its type, and its struct tag as an association list of key-value pairs
(`Tag.Lookup` finds the first entry for a key). -/
structure StructField where
  name : String
  typeKind : Kind
  typePkgPath : String
  typeName : String
  tags : List (String × String)
  deriving DecidableEq, Repr

/-- GraphQL scalar output types used by the scalar classifier:
`graphql.String`, `graphql.Boolean`, `graphql.Int`, `graphql.Float`,
`graphql.DateTime`. -/
inductive GqlScalar where
  | gqlString | gqlBoolean | gqlInt | gqlFloat | gqlDateTime
  deriving DecidableEq, Repr

/-- Modelled from the spec: the filter code constants (`filterNone`,
`filterString`, `filterBool`, `filterInt`, `filterFloat`, `filterDate`) are
`int8` values declared outside `src/type.go`; they are modelled as distinct
codes, with `filterNone` the zero value an unset `fieldDefinition.filter`
holds. -/
inductive FilterCode where
  | filterNone | filterString | filterBool | filterInt | filterFloat | filterDate
  deriving DecidableEq, Repr

/-- The three error values declared at the top of `type.go`. -/
inductive FieldError where
  | errorNotSimpleFieldType
  | errorNotRelationshipType
  | errorUnknownFieldType
  deriving DecidableEq, Repr

/-- A `graphql.Field` as built by the scalar classifier `field`: only `Type`
(a scalar) and `Name` are set. -/
structure ScalarGqlField where
  name : String
  ty : GqlScalar
  deriving DecidableEq, Repr

/-- The `fieldDefinition` struct of `type.go`: a filter code and an optional
(`*graphql.Field`, hence `Option`) scalar field. The defaults are Go's zero
values. -/
structure fieldDefinition where
  filter : FilterCode := FilterCode.filterNone
  field : Option ScalarGqlField := none
  deriving DecidableEq, Repr

/-- A `*graphql.Object` as produced by `graphql.NewObject` in `FieldType`:
name, description, and a field map (association list keyed by field name). -/
structure GqlObject where
  name : String
  description : String
  fields : List (String × ScalarGqlField)
  deriving DecidableEq, Repr

/-- Modelled from the spec: the `Entity` interface is declared outside
`src/type.go`. From its use there it provides `Instance()` — whose reflect
type has a `Name()` and struct fields — and `Description()`. -/
structure Entity where
  typeName : String
  instanceFields : List StructField
  description : String
  deriving DecidableEq, Repr

/-- A handle standing for a `graphql.FieldResolveFn` closure. -/
abbrev ResolveFn : Type := Nat

/-- Modelled from the spec: the `Resolvers` interface is declared outside
`src/type.go`; from its use there it provides `Single(entity)` and
`Listing(entity)` returning resolver functions. A `none` argument models the
nil `Entity` interface value that a missing `entitiesMap` key yields. -/
structure Resolvers where
  single : Option Entity → ResolveFn
  listing : Option Entity → ResolveFn

/-- A `graphql.Output` as used by the relationship classifier: either one of
the scalar types, a (possibly nil) `*graphql.Object`, or
`graphql.NewList` over a (possibly nil) `*graphql.Object`. -/
inductive GqlOutput where
  | scalar (s : GqlScalar)
  | obj (o : Option GqlObject)
  | list (o : Option GqlObject)
  deriving DecidableEq, Repr

/-- A `*graphql.Field` as built by `relationship`: `Name`, `Type`,
`Description` and `Resolve` are set. -/
structure GqlRelField where
  name : String
  ty : GqlOutput
  description : String
  resolve : ResolveFn
  deriving DecidableEq, Repr

/-- Association list lookup: Go map indexing `m[k]` returns `some v` when the
key is present and `none` (the zero value: nil interface / nil pointer)
otherwise. -/
def lookupA {α : Type} : List (String × α) → String → Option α
  | [], _ => none
  | (k, v) :: rest, k' => if k = k' then some v else lookupA rest k'

/-- Association list update: Go map assignment `m[k] = v` replaces the entry
for `k` when present and adds it otherwise. -/
def assocSet {α : Type} : List (String × α) → String → α → List (String × α)
  | [], k, v => [(k, v)]
  | (k', v') :: rest, k, v =>
    if k' = k then (k, v) :: rest else (k', v') :: assocSet rest k v

/-- Go's `strings.ToLower` restricted to ASCII letters (the struct type and
field names the code lowercases are Go identifiers; the full Unicode case
mapping is not modelled). -/
def strToLower (s : String) : String :=
  String.mk (s.data.map Char.toLower)

/-- Go's `strconv.ParseBool` with its error discarded, as in
`filterable, _ = strconv.ParseBool(v)`: `true` exactly on the six accepted
true spellings, `false` on everything else (including parse errors, since the
boolean result is `false` on error). -/
def goParseBoolLenient (s : String) : Bool :=
  s = "1" || s = "t" || s = "T" || s = "true" || s = "TRUE" || s = "True"

/-- `f.Tag.Lookup(key)`: the tag value for `key`, when present. -/
def tagLookup (f : StructField) (key : String) : Option String :=
  lookupA f.tags key

/-- The `filterable` local of `field`: `false` unless the `filterable` tag is
present, else its lenient boolean parse. -/
def filterableOf (f : StructField) : Bool :=
  match tagLookup f "filterable" with
  | some v => goParseBoolLenient v
  | none => false

/-- The `fulltype` local: `f.Type.PkgPath() + "." + f.Type.Name()`. -/
def fullTypeOf (f : StructField) : String :=
  f.typePkgPath ++ "." ++ f.typeName

/-- The name the scalar classifier gives the produced field: the `json` tag
value when that tag is present, otherwise the Go field name — lowercased. -/
def outNameOf (f : StructField) : String :=
  strToLower
  (match tagLookup f "json" with
   | some v => v
   | none => f.name)

/-- The if/else chain of `field` (lines 73-102 of `type.go`): kind switch to
scalar type with the per-branch filter code assignment, then the `time.Time`
full-type case, then struct/slice, then the final error. -/
def classifyKind (kind : Kind) (fulltype : String) (filterable : Bool) :
    Except FieldError (GqlScalar × FilterCode) :=
  if kind = Kind.kstring then
    Except.ok (GqlScalar.gqlString,
      if filterable then FilterCode.filterString else FilterCode.filterNone)
  else if kind = Kind.kbool then
    Except.ok (GqlScalar.gqlBoolean,
      if filterable then FilterCode.filterBool else FilterCode.filterNone)
  else if kind = Kind.kint ∨ kind = Kind.kint8 ∨ kind = Kind.kint16 ∨
      kind = Kind.kint32 ∨ kind = Kind.kint64 ∨ kind = Kind.kuint ∨
      kind = Kind.kuint8 ∨ kind = Kind.kuint16 ∨ kind = Kind.kuint32 ∨
      kind = Kind.kuint64 then
    Except.ok (GqlScalar.gqlInt,
      if filterable then FilterCode.filterInt else FilterCode.filterNone)
  else if kind = Kind.kfloat32 ∨ kind = Kind.kfloat64 then
    Except.ok (GqlScalar.gqlFloat,
      if filterable then FilterCode.filterFloat else FilterCode.filterNone)
  else if fulltype = "time.Time" then
    Except.ok (GqlScalar.gqlDateTime,
      if filterable then FilterCode.filterDate else FilterCode.filterNone)
  else if kind = Kind.kstruct ∨ kind = Kind.kslice then
    Except.error FieldError.errorNotSimpleFieldType
  else
    Except.error FieldError.errorNotRelationshipType

/-- `field` (lines 59-116 of `type.go`): classify the struct field's type,
then build the `graphql.Field` with the lowercased (tag-overridable) name. -/
def field (f : StructField) : Except FieldError fieldDefinition :=
  match classifyKind f.typeKind (fullTypeOf f) (filterableOf f) with
  | Except.error e => Except.error e
  | Except.ok (t, fc) =>
      Except.ok { filter := fc, field := some { name := outNameOf f, ty := t } }

/-- The loop body of `FieldType` (lines 33-44): skip fields rejected as
`errorNotSimpleFieldType`, abort on any other error, and record the produced
field (and its filter code when not `filterNone`) when the field pointer is
non-nil and its name nonempty. -/
def fieldTypeLoop : List StructField → List (String × ScalarGqlField) →
    List (String × FilterCode) →
    Except FieldError (List (String × ScalarGqlField) × List (String × FilterCode))
  | [], fs, fl => Except.ok (fs, fl)
  | f :: rest, fs, fl =>
    match field f with
    | Except.error FieldError.errorNotSimpleFieldType => fieldTypeLoop rest fs fl
    | Except.error e => Except.error e
    | Except.ok d =>
      match d.field with
      | none => fieldTypeLoop rest fs fl
      | some g =>
        if g.name = "" then fieldTypeLoop rest fs fl
        else
          fieldTypeLoop rest (assocSet fs g.name g)
            (if d.filter = FilterCode.filterNone then fl
             else assocSet fl g.name d.filter)

/-- `FieldType` (lines 26-56): run the field loop over the entity's struct
fields and wrap the result in a `graphql.Object` named after the lowercased
struct type name, returning it with the filters map. -/
def FieldType (entity : Entity) :
    Except FieldError (GqlObject × List (String × FilterCode)) :=
  match fieldTypeLoop entity.instanceFields [] [] with
  | Except.error e => Except.error e
  | Except.ok (fs, fl) =>
      Except.ok
        ({ name := strToLower entity.typeName
           description := entity.description
           fields := fs }, fl)

/-- `typeInfo.Name()` for the outputs `relationship` builds: an object's name;
for `graphql.NewList`, the formatted underlying type, which is the object's
name, or the formatting of the nil pointer when `NewList` received nil. -/
def outputNameOf : GqlOutput → String
  | GqlOutput.scalar _ => ""
  | GqlOutput.obj (some o) => o.name
  | GqlOutput.obj none => "<nil>"
  | GqlOutput.list (some o) => o.name
  | GqlOutput.list none => "<nil>"

/-- Modelled from the spec: `Entity` is declared outside `src/type.go`; a
missing `entitiesMap` key yields Go's zero value for it, modelled as `none`,
whose `Description()` is modelled as the empty string. -/
def entityDescriptionOf : Option Entity → String
  | some e => e.description
  | none => ""

/-- `relationship` (lines 137-178): singularize-and-lowercase slice names,
reject non-relationship types, check registration for struct kinds, and build
the single/list field with its description and resolver. `sing` is the
third-party `inflection.Singular`, taken as a parameter. -/
def relationship (sing : String → String) (entitiesMap : List (String × Entity))
    (entitiesObjects : List (String × GqlObject)) (f : StructField)
    (resolvers : Resolvers) : Except FieldError GqlRelField :=
  let kind := f.typeKind
  let fulltype := fullTypeOf f
  let name0 := strToLower f.name
  let chain : Except FieldError String :=
    if kind = Kind.kslice then
      Except.ok (strToLower (sing name0))
    else if fulltype = "time.Time" ∨ (kind ≠ Kind.kstruct ∧ kind ≠ Kind.kslice) then
      Except.error FieldError.errorNotRelationshipType
    else if (lookupA entitiesMap name0).isNone then
      Except.error FieldError.errorUnknownFieldType
    else if (lookupA entitiesObjects name0).isNone then
      Except.error FieldError.errorUnknownFieldType
    else
      Except.ok name0
  match chain with
  | Except.error e => Except.error e
  | Except.ok name =>
    let entity := lookupA entitiesMap name
    if kind = Kind.kstruct then
      let typeInfo := GqlOutput.obj (lookupA entitiesObjects name)
      Except.ok
        { name := name
          ty := typeInfo
          description := "Get a single " ++ outputNameOf typeInfo ++ " (" ++
            entityDescriptionOf entity ++ ") by id or slug"
          resolve := resolvers.single entity }
    else if kind = Kind.kslice then
      let typeInfo := GqlOutput.list (lookupA entitiesObjects name)
      Except.ok
        { name := name
          ty := typeInfo
          description := "Get a list of " ++ outputNameOf typeInfo ++ " (" ++
            entityDescriptionOf entity ++ ") according to filters"
          resolve := resolvers.listing entity }
    else
      Except.error FieldError.errorNotRelationshipType

/-- The loop body of `RelationshipType` (lines 124-132): skip fields rejected
as `errorNotRelationshipType`, return the fields built so far with any other
error, and record each produced field under its name. -/
def relationshipTypeLoop (sing : String → String)
    (entitiesMap : List (String × Entity))
    (entitiesObjects : List (String × GqlObject)) (resolvers : Resolvers) :
    List StructField → List (String × GqlRelField) →
    List (String × GqlRelField) × Option FieldError
  | [], fs => (fs, none)
  | f :: rest, fs =>
    match relationship sing entitiesMap entitiesObjects f resolvers with
    | Except.error FieldError.errorNotRelationshipType =>
        relationshipTypeLoop sing entitiesMap entitiesObjects resolvers rest fs
    | Except.error e => (fs, some e)
    | Except.ok g =>
        relationshipTypeLoop sing entitiesMap entitiesObjects resolvers rest
          (assocSet fs g.name g)

/-- `RelationshipType` (lines 119-135): run the relationship loop over the
entity's struct fields. -/
def RelationshipType (sing : String → String)
    (entitiesMap : List (String × Entity))
    (entitiesObjects : List (String × GqlObject)) (entity : Entity)
    (resolvers : Resolvers) : List (String × GqlRelField) × Option FieldError :=
  relationshipTypeLoop sing entitiesMap entitiesObjects resolvers
    entity.instanceFields []

/-- The GraphQL scalar the claims associate with each Go scalar kind (`none`
for kinds that are not Go scalar kinds). -/
def scalarFor : Kind → Option GqlScalar
  | Kind.kstring => some GqlScalar.gqlString
  | Kind.kbool => some GqlScalar.gqlBoolean
  | Kind.kint => some GqlScalar.gqlInt
  | Kind.kint8 => some GqlScalar.gqlInt
  | Kind.kint16 => some GqlScalar.gqlInt
  | Kind.kint32 => some GqlScalar.gqlInt
  | Kind.kint64 => some GqlScalar.gqlInt
  | Kind.kuint => some GqlScalar.gqlInt
  | Kind.kuint8 => some GqlScalar.gqlInt
  | Kind.kuint16 => some GqlScalar.gqlInt
  | Kind.kuint32 => some GqlScalar.gqlInt
  | Kind.kuint64 => some GqlScalar.gqlInt
  | Kind.kfloat32 => some GqlScalar.gqlFloat
  | Kind.kfloat64 => some GqlScalar.gqlFloat
  | _ => none

/-- The filter code matching each scalar classification. -/
def filterFor : GqlScalar → FilterCode
  | GqlScalar.gqlString => FilterCode.filterString
  | GqlScalar.gqlBoolean => FilterCode.filterBool
  | GqlScalar.gqlInt => FilterCode.filterInt
  | GqlScalar.gqlFloat => FilterCode.filterFloat
  | GqlScalar.gqlDateTime => FilterCode.filterDate

/-- The scalar classification of a struct field, ignoring the filter code. -/
def scalarClassOf (f : StructField) : Option GqlScalar :=
  match classifyKind f.typeKind (fullTypeOf f) (filterableOf f) with
  | Except.ok (t, _) => some t
  | Except.error _ => none

/-! ## Basic lemmas -/

theorem lookupA_assocSet {α : Type} (m : List (String × α)) (k k' : String) (v : α) :
    lookupA (assocSet m k v) k' = if k = k' then some v else lookupA m k' := by
  induction m with
  | nil => simp [assocSet, lookupA]
  | cons p rest ih =>
    obtain ⟨k₀, v₀⟩ := p
    simp only [assocSet]
    by_cases h : k₀ = k
    · subst h
      simp only [if_pos rfl, lookupA]
      by_cases h' : k₀ = k' <;> simp [h']
    · simp only [if_neg h, lookupA, ih]
      by_cases h' : k₀ = k'
      · subst h'
        have hne : k ≠ k₀ := fun he => h he.symm
        simp [hne]
      · simp [h']

theorem field_of_classify (f : StructField) (t : GqlScalar) (fc : FilterCode)
    (h : classifyKind f.typeKind (fullTypeOf f) (filterableOf f) = Except.ok (t, fc)) :
    field f = Except.ok { filter := fc, field := some { name := outNameOf f, ty := t } } := by
  unfold field
  rw [h]

theorem field_ok_elim (f : StructField) (d : fieldDefinition)
    (h : field f = Except.ok d) :
    ∃ t fc, classifyKind f.typeKind (fullTypeOf f) (filterableOf f) = Except.ok (t, fc) ∧
      d = { filter := fc, field := some { name := outNameOf f, ty := t } } := by
  unfold field at h
  split at h
  · exact Except.noConfusion h
  · rename_i t fc heq
    refine ⟨t, fc, heq, ?_⟩
    injection h with h
    exact h.symm

theorem field_error_elim (f : StructField) (e : FieldError)
    (h : field f = Except.error e) :
    classifyKind f.typeKind (fullTypeOf f) (filterableOf f) = Except.error e := by
  unfold field at h
  split at h
  · rename_i e' heq
    injection h with h
    exact h ▸ heq
  · exact Except.noConfusion h

theorem classifyKind_filter (k : Kind) (ft : String) (fb : Bool) (t : GqlScalar)
    (fc : FilterCode) (h : classifyKind k ft fb = Except.ok (t, fc)) :
    fc = if fb then filterFor t else FilterCode.filterNone := by
  unfold classifyKind at h
  split_ifs at h <;>
    first
      | exact Except.noConfusion h
      | (injection h with h
         injection h with h1 h2
         subst h1
         subst h2
         simp_all [filterFor])

theorem classifyKind_error_cases (k : Kind) (ft : String) (fb : Bool) (e : FieldError)
    (h : classifyKind k ft fb = Except.error e) :
    e = FieldError.errorNotSimpleFieldType ∨ e = FieldError.errorNotRelationshipType := by
  unfold classifyKind at h
  split_ifs at h <;>
    first
      | exact Except.noConfusion h
      | (injection h with h
         subst h
         simp)

theorem classifyKind_of_scalarFor (k : Kind) (ft : String) (fb : Bool) (s : GqlScalar)
    (h : scalarFor k = some s) :
    classifyKind k ft fb = Except.ok (s, if fb then filterFor s else FilterCode.filterNone) := by
  cases k <;> simp_all [scalarFor] <;> subst h <;> rfl

theorem classifyKind_struct_slice (k : Kind) (ft : String) (fb : Bool)
    (hk : k = Kind.kstruct ∨ k = Kind.kslice) (hft : ft ≠ "time.Time") :
    classifyKind k ft fb = Except.error FieldError.errorNotSimpleFieldType := by
  rcases hk with rfl | rfl <;> simp [classifyKind, hft]

theorem filterFor_ne_none (t : GqlScalar) : filterFor t ≠ FilterCode.filterNone := by
  cases t <;> simp [filterFor]

theorem scalarClassOf_ok (f : StructField) (t : GqlScalar) :
    scalarClassOf f = some t ↔
      classifyKind f.typeKind (fullTypeOf f) (filterableOf f) =
        Except.ok (t, if filterableOf f then filterFor t else FilterCode.filterNone) := by
  constructor
  · intro h
    unfold scalarClassOf at h
    split at h
    · rename_i t' fc heq
      injection h with h
      subst h
      rw [classifyKind_filter _ _ _ _ _ heq] at heq
      exact heq
    · exact Option.noConfusion h
  · intro h
    unfold scalarClassOf
    rw [h]

/-! ## C1: Go scalar kinds map to the corresponding GraphQL scalars -/

/-- C1: for every struct field whose type kind is a Go scalar kind, the scalar
classifier `field` succeeds and assigns the corresponding GraphQL scalar type
(String kind to `graphql.String`, Bool to `graphql.Boolean`, all signed and
unsigned integer kinds to `graphql.Int`, Float32/Float64 to `graphql.Float`,
as recorded by `scalarFor`). -/
theorem scalar_kind_yields_scalar_field (f : StructField) (s : GqlScalar)
    (h : scalarFor f.typeKind = some s) :
    ∃ d g, field f = Except.ok d ∧ d.field = some g ∧ g.ty = s :=
  ⟨_, _, field_of_classify f s _ (classifyKind_of_scalarFor _ _ _ _ h), rfl, rfl⟩

/-- Witness for C1 at a concrete `uint8` field. -/
theorem scalar_kind_yields_scalar_field_witness :
    scalarFor (StructField.mk "Age" Kind.kuint8 "" "" []).typeKind =
      some GqlScalar.gqlInt ∧
    ∃ d g, field (StructField.mk "Age" Kind.kuint8 "" "" []) = Except.ok d ∧
      d.field = some g ∧ g.ty = GqlScalar.gqlInt :=
  ⟨rfl, scalar_kind_yields_scalar_field (StructField.mk "Age" Kind.kuint8 "" "" [])
    GqlScalar.gqlInt rfl⟩

/-! ## C5: the scalar and relationship classifiers are mutually exclusive -/

/-- Whether an `Except` result is a success. -/
def isOkB {ε α : Type} : Except ε α → Bool
  | Except.ok _ => true
  | Except.error _ => false

/-- C5: the scalar classifier and the relationship classifier never both
succeed on the same struct field. The hypothesis records the Go type-system
fact the embedding does not enforce by itself: the only type with package
path `time` and name `Time` is the struct type `time.Time`. -/
theorem classifiers_mutually_exclusive (sing : String → String)
    (em : List (String × Entity)) (eo : List (String × GqlObject))
    (rs : Resolvers) (f : StructField)
    (hwf : fullTypeOf f = "time.Time" → f.typeKind = Kind.kstruct) :
    isOkB (field f) = false ∨ isOkB (relationship sing em eo f rs) = false := by
  by_cases hft : fullTypeOf f = "time.Time"
  · cases hk : f.typeKind <;>
      first
        | (right; simp [relationship, isOkB, hk, hft]; done)
        | (have h2 := hwf hft; rw [hk] at h2; exact Kind.noConfusion h2)
  · cases hk : f.typeKind <;>
      first
        | (left; simp [field, classifyKind, isOkB, hk, hft]; done)
        | (right; simp [relationship, isOkB, hk]; done)

/-- Witness for C5 at a concrete string-kind field. -/
theorem classifiers_mutually_exclusive_witness :
    (fullTypeOf (StructField.mk "Title" Kind.kstring "" "" []) = "time.Time" →
      (StructField.mk "Title" Kind.kstring "" "" []).typeKind = Kind.kstruct) ∧
    (isOkB (field (StructField.mk "Title" Kind.kstring "" "" [])) = false ∨
      isOkB (relationship id [] [] (StructField.mk "Title" Kind.kstring "" "" [])
        (Resolvers.mk (fun _ => 0) (fun _ => 1))) = false) :=
  ⟨by decide,
   classifiers_mutually_exclusive id [] [] (Resolvers.mk (fun _ => 0) (fun _ => 1))
     (StructField.mk "Title" Kind.kstring "" "" []) (by decide)⟩

/-! ## C6: tag-driven name overrides -/

/-- C6: every field the scalar classifier produces is named by the lowercased
`json` tag value when that tag is present, and by the lowercased Go field name
otherwise. -/
theorem scalar_field_name_tag_override (f : StructField) (d : fieldDefinition)
    (g : ScalarGqlField) (h1 : field f = Except.ok d) (h2 : d.field = some g) :
    g.name = strToLower (match tagLookup f "json" with
                         | some v => v
                         | none => f.name) := by
  obtain ⟨t, fc, hc, rfl⟩ := field_ok_elim f d h1
  injection h2 with h2
  rw [← h2]
  rfl

/-- Witness for C6 at a concrete field carrying a `json` tag. -/
theorem scalar_field_name_tag_override_witness :
    field (StructField.mk "FirstName" Kind.kstring "" "" [("json", "First_Name")]) =
      Except.ok (fieldDefinition.mk FilterCode.filterNone
        (some (ScalarGqlField.mk "first_name" GqlScalar.gqlString))) ∧
    (fieldDefinition.mk FilterCode.filterNone
        (some (ScalarGqlField.mk "first_name" GqlScalar.gqlString))).field =
      some (ScalarGqlField.mk "first_name" GqlScalar.gqlString) ∧
    (ScalarGqlField.mk "first_name" GqlScalar.gqlString).name =
      strToLower (match tagLookup
          (StructField.mk "FirstName" Kind.kstring "" "" [("json", "First_Name")])
          "json" with
        | some v => v
        | none => (StructField.mk "FirstName" Kind.kstring "" ""
            [("json", "First_Name")]).name) :=
  ⟨rfl, rfl,
   scalar_field_name_tag_override
     (StructField.mk "FirstName" Kind.kstring "" "" [("json", "First_Name")])
     (fieldDefinition.mk FilterCode.filterNone
       (some (ScalarGqlField.mk "first_name" GqlScalar.gqlString)))
     (ScalarGqlField.mk "first_name" GqlScalar.gqlString) rfl rfl⟩

/-! ## C8: time.Time is a scalar, not a relationship -/

/-- C8: a struct-kind field whose full type is `time.Time` is classified as a
`graphql.DateTime` scalar (with `filterDate` when filterable), while the
relationship classifier rejects it with `errorNotRelationshipType`, so the
`RelationshipType` loop skips it. -/
theorem time_time_scalar_not_relationship (sing : String → String)
    (em : List (String × Entity)) (eo : List (String × GqlObject))
    (rs : Resolvers) (f : StructField) (rest : List StructField)
    (fs : List (String × GqlRelField))
    (hk : f.typeKind = Kind.kstruct) (hft : fullTypeOf f = "time.Time") :
    (∃ d g, field f = Except.ok d ∧ d.field = some g ∧
      g.ty = GqlScalar.gqlDateTime ∧
      (filterableOf f = true → d.filter = FilterCode.filterDate)) ∧
    relationship sing em eo f rs = Except.error FieldError.errorNotRelationshipType ∧
    relationshipTypeLoop sing em eo rs (f :: rest) fs =
      relationshipTypeLoop sing em eo rs rest fs := by
  have hcl : classifyKind f.typeKind (fullTypeOf f) (filterableOf f) =
      Except.ok (GqlScalar.gqlDateTime,
        if filterableOf f then FilterCode.filterDate else FilterCode.filterNone) := by
    rw [hk, hft]
    rfl
  have hrel : relationship sing em eo f rs =
      Except.error FieldError.errorNotRelationshipType := by
    simp [relationship, hk, hft]
  refine ⟨⟨_, _, field_of_classify f _ _ hcl, rfl, rfl, ?_⟩, hrel, ?_⟩
  · intro hfb
    simp [hfb]
  · simp [relationshipTypeLoop, hrel]

/-- Witness for C8 at a concrete `time.Time` field. -/
theorem time_time_scalar_not_relationship_witness :
    (StructField.mk "CreatedAt" Kind.kstruct "time" "Time"
        [("filterable", "true")]).typeKind = Kind.kstruct ∧
    fullTypeOf (StructField.mk "CreatedAt" Kind.kstruct "time" "Time"
        [("filterable", "true")]) = "time.Time" ∧
    ((∃ d g, field (StructField.mk "CreatedAt" Kind.kstruct "time" "Time"
        [("filterable", "true")]) = Except.ok d ∧ d.field = some g ∧
        g.ty = GqlScalar.gqlDateTime ∧
        (filterableOf (StructField.mk "CreatedAt" Kind.kstruct "time" "Time"
          [("filterable", "true")]) = true → d.filter = FilterCode.filterDate)) ∧
      relationship id [] [] (StructField.mk "CreatedAt" Kind.kstruct "time" "Time"
          [("filterable", "true")]) (Resolvers.mk (fun _ => 0) (fun _ => 1)) =
        Except.error FieldError.errorNotRelationshipType ∧
      relationshipTypeLoop id [] [] (Resolvers.mk (fun _ => 0) (fun _ => 1))
          [StructField.mk "CreatedAt" Kind.kstruct "time" "Time"
            [("filterable", "true")]] [] =
        relationshipTypeLoop id [] [] (Resolvers.mk (fun _ => 0) (fun _ => 1)) [] []) :=
  ⟨rfl, by decide,
   time_time_scalar_not_relationship id [] [] (Resolvers.mk (fun _ => 0) (fun _ => 1))
     (StructField.mk "CreatedAt" Kind.kstruct "time" "Time" [("filterable", "true")])
     [] [] rfl (by decide)⟩

/-! ## C10: unsupported kinds abort FieldType -/

theorem field_unsupported_kind (f : StructField)
    (h1 : scalarFor f.typeKind = none) (h2 : fullTypeOf f ≠ "time.Time")
    (h3 : f.typeKind ≠ Kind.kstruct) (h4 : f.typeKind ≠ Kind.kslice) :
    field f = Except.error FieldError.errorNotRelationshipType := by
  cases hk : f.typeKind
  case kstruct => exact absurd hk h3
  case kslice => exact absurd hk h4
  all_goals
    first
      | (simp [field, classifyKind, hk, h2]; done)
      | (rw [hk] at h1; exact absurd h1 (by simp [scalarFor]))

theorem fieldTypeLoop_error_of_mem (l : List StructField)
    (fs : List (String × ScalarGqlField)) (fl : List (String × FilterCode))
    (f : StructField) (hf : f ∈ l)
    (he : field f = Except.error FieldError.errorNotRelationshipType) :
    fieldTypeLoop l fs fl = Except.error FieldError.errorNotRelationshipType := by
  induction l generalizing fs fl with
  | nil => cases hf
  | cons a l ih =>
    rcases List.mem_cons.mp hf with rfl | hf'
    · simp [fieldTypeLoop, he]
    · cases hfa : field a with
      | error e =>
        cases e with
        | errorNotSimpleFieldType =>
          simp only [fieldTypeLoop, hfa]
          exact ih _ _ hf'
        | errorNotRelationshipType => simp [fieldTypeLoop, hfa]
        | errorUnknownFieldType =>
          have hcl := field_error_elim a _ hfa
          rcases classifyKind_error_cases _ _ _ _ hcl with h | h <;>
            exact FieldError.noConfusion h
      | ok d =>
        rcases hd : d.field with _ | g
        · simp only [fieldTypeLoop, hfa, hd]
          exact ih _ _ hf'
        · by_cases hg : g.name = ""
          · simp only [fieldTypeLoop, hfa, hd, if_pos hg]
            exact ih _ _ hf'
          · simp only [fieldTypeLoop, hfa, hd, if_neg hg]
            exact ih _ _ hf'

/-- C10: a field whose type is neither a supported scalar kind, nor
`time.Time`, nor of kind Struct or Slice, makes `field` return
`errorNotRelationshipType`; `FieldType` then aborts with that error instead
of skipping the field. -/
theorem unsupported_kind_aborts_fieldtype (f : StructField) (entity : Entity)
    (h1 : scalarFor f.typeKind = none) (h2 : fullTypeOf f ≠ "time.Time")
    (h3 : f.typeKind ≠ Kind.kstruct) (h4 : f.typeKind ≠ Kind.kslice) :
    field f = Except.error FieldError.errorNotRelationshipType ∧
    (f ∈ entity.instanceFields →
      FieldType entity = Except.error FieldError.errorNotRelationshipType) := by
  have hfe := field_unsupported_kind f h1 h2 h3 h4
  refine ⟨hfe, fun hmem => ?_⟩
  unfold FieldType
  rw [fieldTypeLoop_error_of_mem entity.instanceFields [] [] f hmem hfe]

/-- Witness for C10 at a concrete pointer-kind field. -/
theorem unsupported_kind_aborts_fieldtype_witness :
    scalarFor (StructField.mk "Owner" Kind.kptr "" "" []).typeKind = none ∧
    fullTypeOf (StructField.mk "Owner" Kind.kptr "" "" []) ≠ "time.Time" ∧
    (StructField.mk "Owner" Kind.kptr "" "" []).typeKind ≠ Kind.kstruct ∧
    (StructField.mk "Owner" Kind.kptr "" "" []).typeKind ≠ Kind.kslice ∧
    (field (StructField.mk "Owner" Kind.kptr "" "" []) =
        Except.error FieldError.errorNotRelationshipType ∧
      (StructField.mk "Owner" Kind.kptr "" "" [] ∈
          (Entity.mk "doc" [StructField.mk "Owner" Kind.kptr "" "" []]
            "a document").instanceFields →
        FieldType (Entity.mk "doc" [StructField.mk "Owner" Kind.kptr "" "" []]
            "a document") =
          Except.error FieldError.errorNotRelationshipType)) :=
  ⟨rfl, by decide, by decide, by decide,
   unsupported_kind_aborts_fieldtype (StructField.mk "Owner" Kind.kptr "" "" [])
     (Entity.mk "doc" [StructField.mk "Owner" Kind.kptr "" "" []] "a document")
     rfl (by decide) (by decide) (by decide)⟩

/-! ## Concrete example data shared by witnesses -/

/-- A registered entity used by witnesses. -/
def exOwnerEntity : Entity := Entity.mk "owner" [] "an owner"

/-- A registered object used by witnesses. -/
def exOwnerObject : GqlObject := GqlObject.mk "owner" "an owner" []

/-- An entities map registering `owner`. -/
def exEM : List (String × Entity) := [("owner", exOwnerEntity)]

/-- An objects map registering `owner`. -/
def exEO : List (String × GqlObject) := [("owner", exOwnerObject)]

/-- Concrete resolvers used by witnesses. -/
def exRS : Resolvers := Resolvers.mk (fun _ => 0) (fun _ => 1)

/-- A concrete singularization function standing for `inflection.Singular`. -/
def exSing : String → String := fun _ => "owner"

/-- A struct-kind field named `Owner`. -/
def exStructField : StructField := StructField.mk "Owner" Kind.kstruct "main" "Owner" []

/-- A slice-kind field named `Owners`. -/
def exSliceField : StructField := StructField.mk "Owners" Kind.kslice "" "" []

/-! ## C2: relationship fields are wired with resolvers -/

/-- C2: a struct-kind field (not `time.Time`) whose lowercased name is
registered in both maps becomes a field whose type is the registered object
and whose resolver is `resolvers.Single` of the registered entity; a
slice-kind field whose singularized lowercased name is registered becomes a
field whose type is a GraphQL list of the registered object and whose
resolver is `resolvers.Listing` of the registered entity. -/
theorem relationship_wiring (sing : String → String)
    (em : List (String × Entity)) (eo : List (String × GqlObject))
    (rs : Resolvers) (f : StructField) :
    (∀ e o, f.typeKind = Kind.kstruct → fullTypeOf f ≠ "time.Time" →
      lookupA em (strToLower f.name) = some e →
      lookupA eo (strToLower f.name) = some o →
      ∃ fld, relationship sing em eo f rs = Except.ok fld ∧
        fld.ty = GqlOutput.obj (some o) ∧ fld.resolve = rs.single (some e)) ∧
    (∀ e o, f.typeKind = Kind.kslice →
      lookupA em (strToLower (sing (strToLower f.name))) = some e →
      lookupA eo (strToLower (sing (strToLower f.name))) = some o →
      ∃ fld, relationship sing em eo f rs = Except.ok fld ∧
        fld.ty = GqlOutput.list (some o) ∧ fld.resolve = rs.listing (some e)) := by
  constructor
  · intro e o hk hft hm ho
    simp [relationship, hk, hft, hm, ho]
  · intro e o hk hm ho
    simp [relationship, hk, hm, ho]

/-- Witness for C2 at a registered struct field and a registered slice field. -/
theorem relationship_wiring_witness :
    (lookupA exEM (strToLower exStructField.name) = some exOwnerEntity ∧
      lookupA exEO (strToLower exStructField.name) = some exOwnerObject ∧
      ∃ fld, relationship exSing exEM exEO exStructField exRS = Except.ok fld ∧
        fld.ty = GqlOutput.obj (some exOwnerObject) ∧
        fld.resolve = exRS.single (some exOwnerEntity)) ∧
    (lookupA exEM (strToLower (exSing (strToLower exSliceField.name))) =
        some exOwnerEntity ∧
      lookupA exEO (strToLower (exSing (strToLower exSliceField.name))) =
        some exOwnerObject ∧
      ∃ fld, relationship exSing exEM exEO exSliceField exRS = Except.ok fld ∧
        fld.ty = GqlOutput.list (some exOwnerObject) ∧
        fld.resolve = exRS.listing (some exOwnerEntity)) :=
  ⟨⟨rfl, rfl,
    (relationship_wiring exSing exEM exEO exRS exStructField).1 exOwnerEntity
      exOwnerObject rfl (by decide) rfl rfl⟩,
   ⟨rfl, rfl,
    (relationship_wiring exSing exEM exEO exRS exSliceField).2 exOwnerEntity
      exOwnerObject rfl rfl rfl⟩⟩

/-! ## C9: the unknown-type error is raised only for struct kinds -/

/-- C9: `relationship` returns `errorUnknownFieldType` exactly for struct-kind
fields, other than `time.Time`, whose lowercased name is missing from
`entitiesMap` or `entitiesObjects`; for a slice-kind field the registration
check is skipped, and with an unregistered singularized name the call still
succeeds, building a list over the nil object with a resolver for the nil
entity. -/
theorem unknown_error_iff_unregistered_struct (sing : String → String)
    (em : List (String × Entity)) (eo : List (String × GqlObject))
    (rs : Resolvers) (f : StructField) :
    (relationship sing em eo f rs = Except.error FieldError.errorUnknownFieldType ↔
      (f.typeKind = Kind.kstruct ∧ fullTypeOf f ≠ "time.Time" ∧
        (lookupA em (strToLower f.name) = none ∨
         lookupA eo (strToLower f.name) = none))) ∧
    (f.typeKind = Kind.kslice →
      lookupA em (strToLower (sing (strToLower f.name))) = none →
      lookupA eo (strToLower (sing (strToLower f.name))) = none →
      ∃ fld, relationship sing em eo f rs = Except.ok fld ∧
        fld.ty = GqlOutput.list none ∧ fld.resolve = rs.listing none) := by
  constructor
  · cases hk : f.typeKind
    case kstruct =>
      by_cases hft : fullTypeOf f = "time.Time"
      · simp [relationship, hk, hft]
      · cases hm : lookupA em (strToLower f.name)
        · simp [relationship, hk, hft, hm]
        · cases ho : lookupA eo (strToLower f.name)
          · simp [relationship, hk, hft, hm, ho]
          · simp [relationship, hk, hft, hm, ho]
    all_goals simp [relationship, hk]
  · intro hk hm ho
    simp [relationship, hk, hm, ho]

/-- Witness for C9 at a slice-kind field over empty registration maps. -/
theorem unknown_error_iff_unregistered_struct_witness :
    (relationship exSing [] [] exSliceField exRS =
        Except.error FieldError.errorUnknownFieldType ↔
      (exSliceField.typeKind = Kind.kstruct ∧
        fullTypeOf exSliceField ≠ "time.Time" ∧
        (lookupA ([] : List (String × Entity)) (strToLower exSliceField.name) =
            none ∨
         lookupA ([] : List (String × GqlObject)) (strToLower exSliceField.name) =
            none))) ∧
    (∃ fld, relationship exSing [] [] exSliceField exRS = Except.ok fld ∧
      fld.ty = GqlOutput.list none ∧ fld.resolve = exRS.listing none) :=
  ⟨(unknown_error_iff_unregistered_struct exSing [] [] exRS exSliceField).1,
   (unknown_error_iff_unregistered_struct exSing [] [] exRS exSliceField).2
     rfl rfl rfl⟩

/-! ## Loop invariants of FieldType -/

/-- The condition under which the `FieldType` loop records a filter entry
for field `f` under key `n` with code `fc`. -/
def addsFilter (f : StructField) (n : String) (fc : FilterCode) : Prop :=
  ∃ d g, field f = Except.ok d ∧ d.field = some g ∧ g.name = n ∧ n ≠ "" ∧
    d.filter = fc ∧ fc ≠ FilterCode.filterNone

/-- The condition under which the `FieldType` loop records a field entry
for field `f` under key `n` with value `g`. -/
def addsField (f : StructField) (n : String) (g : ScalarGqlField) : Prop :=
  ∃ d, field f = Except.ok d ∧ d.field = some g ∧ g.name = n ∧ n ≠ ""

theorem fieldTypeLoop_filters_mono (l : List StructField)
    (fs : List (String × ScalarGqlField)) (fl : List (String × FilterCode))
    (fs' : List (String × ScalarGqlField)) (fl' : List (String × FilterCode))
    (n : String) (h : fieldTypeLoop l fs fl = Except.ok (fs', fl'))
    (hn : (lookupA fl n).isSome = true) : (lookupA fl' n).isSome = true := by
  induction l generalizing fs fl with
  | nil =>
    simp only [fieldTypeLoop, Except.ok.injEq, Prod.mk.injEq] at h
    obtain ⟨h1, h2⟩ := h
    subst h2
    exact hn
  | cons a l ih =>
    cases hfa : field a with
    | error e =>
      cases e with
      | errorNotSimpleFieldType =>
        simp only [fieldTypeLoop, hfa] at h
        exact ih _ _ h hn
      | errorNotRelationshipType => simp [fieldTypeLoop, hfa] at h
      | errorUnknownFieldType => simp [fieldTypeLoop, hfa] at h
    | ok d =>
      rcases hd : d.field with _ | g
      · simp only [fieldTypeLoop, hfa, hd] at h
        exact ih _ _ h hn
      · by_cases hg : g.name = ""
        · simp only [fieldTypeLoop, hfa, hd, if_pos hg] at h
          exact ih _ _ h hn
        · simp only [fieldTypeLoop, hfa, hd, if_neg hg] at h
          refine ih _ _ h ?_
          by_cases hfc : d.filter = FilterCode.filterNone
          · simpa [hfc] using hn
          · rw [if_neg hfc, lookupA_assocSet]
            by_cases hgn : g.name = n
            · simp [hgn]
            · simp [hgn, hn]

theorem fieldTypeLoop_filters_complete (l : List StructField)
    (fs : List (String × ScalarGqlField)) (fl : List (String × FilterCode))
    (fs' : List (String × ScalarGqlField)) (fl' : List (String × FilterCode))
    (f : StructField) (n : String) (fc : FilterCode)
    (h : fieldTypeLoop l fs fl = Except.ok (fs', fl')) (hf : f ∈ l)
    (ha : addsFilter f n fc) : (lookupA fl' n).isSome = true := by
  induction l generalizing fs fl with
  | nil => cases hf
  | cons a l ih =>
    rcases List.mem_cons.mp hf with rfl | hf'
    · obtain ⟨d, g, hok, hd, hgn, hne, hfil, hfc⟩ := ha
      have hg : ¬(g.name = "") := by rw [hgn]; exact hne
      have hdfc : ¬(d.filter = FilterCode.filterNone) := by rw [hfil]; exact hfc
      simp only [fieldTypeLoop, hok, hd, if_neg hg, if_neg hdfc] at h
      refine fieldTypeLoop_filters_mono l _ _ _ _ n h ?_
      rw [lookupA_assocSet, if_pos hgn]
      rfl
    · cases hfa : field a with
      | error e =>
        cases e with
        | errorNotSimpleFieldType =>
          simp only [fieldTypeLoop, hfa] at h
          exact ih _ _ h hf'
        | errorNotRelationshipType => simp [fieldTypeLoop, hfa] at h
        | errorUnknownFieldType => simp [fieldTypeLoop, hfa] at h
      | ok d =>
        rcases hd : d.field with _ | g
        · simp only [fieldTypeLoop, hfa, hd] at h
          exact ih _ _ h hf'
        · by_cases hg : g.name = ""
          · simp only [fieldTypeLoop, hfa, hd, if_pos hg] at h
            exact ih _ _ h hf'
          · simp only [fieldTypeLoop, hfa, hd, if_neg hg] at h
            exact ih _ _ h hf'

theorem fieldTypeLoop_filters_sound (l : List StructField)
    (fs : List (String × ScalarGqlField)) (fl : List (String × FilterCode))
    (fs' : List (String × ScalarGqlField)) (fl' : List (String × FilterCode))
    (n : String) (fc : FilterCode)
    (h : fieldTypeLoop l fs fl = Except.ok (fs', fl'))
    (hl : lookupA fl' n = some fc) :
    lookupA fl n = some fc ∨ ∃ f, f ∈ l ∧ addsFilter f n fc := by
  induction l generalizing fs fl with
  | nil =>
    simp only [fieldTypeLoop, Except.ok.injEq, Prod.mk.injEq] at h
    obtain ⟨h1, h2⟩ := h
    subst h2
    exact Or.inl hl
  | cons a l ih =>
    cases hfa : field a with
    | error e =>
      cases e with
      | errorNotSimpleFieldType =>
        simp only [fieldTypeLoop, hfa] at h
        rcases ih _ _ h with hl' | ⟨f, hfl, ha⟩
        · exact Or.inl hl'
        · exact Or.inr ⟨f, List.mem_cons_of_mem a hfl, ha⟩
      | errorNotRelationshipType => simp [fieldTypeLoop, hfa] at h
      | errorUnknownFieldType => simp [fieldTypeLoop, hfa] at h
    | ok d =>
      rcases hd : d.field with _ | g
      · simp only [fieldTypeLoop, hfa, hd] at h
        rcases ih _ _ h with hl' | ⟨f, hfl, ha⟩
        · exact Or.inl hl'
        · exact Or.inr ⟨f, List.mem_cons_of_mem a hfl, ha⟩
      · by_cases hg : g.name = ""
        · simp only [fieldTypeLoop, hfa, hd, if_pos hg] at h
          rcases ih _ _ h with hl' | ⟨f, hfl, ha⟩
          · exact Or.inl hl'
          · exact Or.inr ⟨f, List.mem_cons_of_mem a hfl, ha⟩
        · simp only [fieldTypeLoop, hfa, hd, if_neg hg] at h
          by_cases hfc : d.filter = FilterCode.filterNone
          · rw [if_pos hfc] at h
            rcases ih _ _ h with hl' | ⟨f, hfl, ha⟩
            · exact Or.inl hl'
            · exact Or.inr ⟨f, List.mem_cons_of_mem a hfl, ha⟩
          · rw [if_neg hfc] at h
            rcases ih _ _ h with hl' | ⟨f, hfl, ha⟩
            · rw [lookupA_assocSet] at hl'
              by_cases hgn : g.name = n
              · rw [if_pos hgn] at hl'
                injection hl' with hl'
                refine Or.inr ⟨a, List.mem_cons_self a l, d, g, hfa, hd, hgn,
                  ?_, hl', ?_⟩
                · rw [← hgn]; exact hg
                · rw [← hl']; exact hfc
              · rw [if_neg hgn] at hl'
                exact Or.inl hl'
            · exact Or.inr ⟨f, List.mem_cons_of_mem a hfl, ha⟩

theorem fieldTypeLoop_fields_sound (l : List StructField)
    (fs : List (String × ScalarGqlField)) (fl : List (String × FilterCode))
    (fs' : List (String × ScalarGqlField)) (fl' : List (String × FilterCode))
    (n : String) (g0 : ScalarGqlField)
    (h : fieldTypeLoop l fs fl = Except.ok (fs', fl'))
    (hl : lookupA fs' n = some g0) :
    lookupA fs n = some g0 ∨ ∃ f, f ∈ l ∧ addsField f n g0 := by
  induction l generalizing fs fl with
  | nil =>
    simp only [fieldTypeLoop, Except.ok.injEq, Prod.mk.injEq] at h
    obtain ⟨h1, h2⟩ := h
    subst h1
    exact Or.inl hl
  | cons a l ih =>
    cases hfa : field a with
    | error e =>
      cases e with
      | errorNotSimpleFieldType =>
        simp only [fieldTypeLoop, hfa] at h
        rcases ih _ _ h with hl' | ⟨f, hfl, ha⟩
        · exact Or.inl hl'
        · exact Or.inr ⟨f, List.mem_cons_of_mem a hfl, ha⟩
      | errorNotRelationshipType => simp [fieldTypeLoop, hfa] at h
      | errorUnknownFieldType => simp [fieldTypeLoop, hfa] at h
    | ok d =>
      rcases hd : d.field with _ | g
      · simp only [fieldTypeLoop, hfa, hd] at h
        rcases ih _ _ h with hl' | ⟨f, hfl, ha⟩
        · exact Or.inl hl'
        · exact Or.inr ⟨f, List.mem_cons_of_mem a hfl, ha⟩
      · by_cases hg : g.name = ""
        · simp only [fieldTypeLoop, hfa, hd, if_pos hg] at h
          rcases ih _ _ h with hl' | ⟨f, hfl, ha⟩
          · exact Or.inl hl'
          · exact Or.inr ⟨f, List.mem_cons_of_mem a hfl, ha⟩
        · simp only [fieldTypeLoop, hfa, hd, if_neg hg] at h
          rcases ih _ _ h with hl' | ⟨f, hfl, ha⟩
          · rw [lookupA_assocSet] at hl'
            by_cases hgn : g.name = n
            · rw [if_pos hgn] at hl'
              injection hl' with hl'
              subst hl'
              exact Or.inr ⟨a, List.mem_cons_self a l, d, hfa, hd, hgn, by
                rw [← hgn]; exact hg⟩
            · rw [if_neg hgn] at hl'
              exact Or.inl hl'
          · exact Or.inr ⟨f, List.mem_cons_of_mem a hfl, ha⟩

/-- `addsFilter` in terms of the claims' vocabulary: scalar classification,
filterable tag, output name, and the matching filter code. -/
theorem addsFilter_iff (f : StructField) (n : String) (fc : FilterCode) :
    addsFilter f n fc ↔
      ∃ t, scalarClassOf f = some t ∧ filterableOf f = true ∧
        outNameOf f = n ∧ n ≠ "" ∧ fc = filterFor t := by
  constructor
  · rintro ⟨d, g, hok, hd, hgn, hne, hfil, hfc⟩
    obtain ⟨t, fc', hc, hdEq⟩ := field_ok_elim f d hok
    have hdfil : d.filter = fc' := by rw [hdEq]
    have hdfield : d.field = some (ScalarGqlField.mk (outNameOf f) t) := by
      rw [hdEq]
    rw [hdfield] at hd
    injection hd with hd
    rw [hdfil] at hfil
    have hfc' : fc' = if filterableOf f then filterFor t else FilterCode.filterNone :=
      classifyKind_filter _ _ _ _ _ hc
    by_cases hfb : filterableOf f = true
    · refine ⟨t, ?_, hfb, ?_, hne, ?_⟩
      · rw [hfc', if_pos hfb] at hc
        exact (scalarClassOf_ok f t).mpr (by rw [hc, if_pos hfb])
      · rw [← hd] at hgn
        exact hgn
      · rw [← hfil, hfc', if_pos hfb]
    · exfalso
      apply hfc
      rw [← hfil, hfc', if_neg hfb]
  · rintro ⟨t, hsc, hfb, hon, hne, rfl⟩
    have hc := (scalarClassOf_ok f t).mp hsc
    rw [if_pos hfb] at hc
    refine ⟨_, _, field_of_classify f t (filterFor t) hc, rfl, hon, hne, rfl,
      filterFor_ne_none t⟩

/-! ## C3: characterization of the filters map -/

/-- C3 (amended): the filters map returned by `FieldType` contains exactly
the nonempty output names of the scalar fields whose `filterable` tag parses
as boolean true, and maps each such name to the filter code matching the
scalar classification of a field carrying that output name. -/
theorem filters_characterization (entity : Entity) (obj : GqlObject)
    (filters : List (String × FilterCode)) (n : String)
    (h : FieldType entity = Except.ok (obj, filters)) :
    ((lookupA filters n).isSome = true ↔
      ∃ f, f ∈ entity.instanceFields ∧ ∃ t, scalarClassOf f = some t ∧
        filterableOf f = true ∧ outNameOf f = n ∧ n ≠ "") ∧
    (∀ fc, lookupA filters n = some fc →
      ∃ f, f ∈ entity.instanceFields ∧ ∃ t, scalarClassOf f = some t ∧
        filterableOf f = true ∧ outNameOf f = n ∧ fc = filterFor t) := by
  unfold FieldType at h
  cases hloop : fieldTypeLoop entity.instanceFields [] [] with
  | error e =>
    rw [hloop] at h
    exact Except.noConfusion h
  | ok p =>
    obtain ⟨fs, fl⟩ := p
    rw [hloop] at h
    simp only [Except.ok.injEq, Prod.mk.injEq] at h
    obtain ⟨hobj, hfl⟩ := h
    subst hfl
    constructor
    · constructor
      · intro hsome
        obtain ⟨fc, hfc⟩ := Option.isSome_iff_exists.mp hsome
        rcases fieldTypeLoop_filters_sound _ _ _ _ _ _ _ hloop hfc with
          h0 | ⟨f, hfm, ha⟩
        · exact absurd h0 (by simp [lookupA])
        · obtain ⟨t, hsc, hfb, hon, hne, _⟩ := (addsFilter_iff f n fc).mp ha
          exact ⟨f, hfm, t, hsc, hfb, hon, hne⟩
      · rintro ⟨f, hfm, t, hsc, hfb, hon, hne⟩
        refine fieldTypeLoop_filters_complete _ _ _ _ _ f n (filterFor t)
          hloop hfm ?_
        exact (addsFilter_iff f n (filterFor t)).mpr ⟨t, hsc, hfb, hon, hne, rfl⟩
    · intro fc hfc
      rcases fieldTypeLoop_filters_sound _ _ _ _ _ _ _ hloop hfc with
        h0 | ⟨f, hfm, ha⟩
      · exact absurd h0 (by simp [lookupA])
      · obtain ⟨t, hsc, hfb, hon, _, hfcf⟩ := (addsFilter_iff f n fc).mp ha
        exact ⟨f, hfm, t, hsc, hfb, hon, hfcf⟩

/-- C3 counterexample: a filterable string-kind field whose `json` tag is the
empty string is a scalar field whose `filterable` tag parses true, yet the
filters map `FieldType` returns is empty — its (empty) output name is
missing, against the claim's "contains exactly". -/
theorem filters_characterization_cex :
    scalarClassOf (StructField.mk "A" Kind.kstring "" ""
        [("json", ""), ("filterable", "true")]) = some GqlScalar.gqlString ∧
    filterableOf (StructField.mk "A" Kind.kstring "" ""
        [("json", ""), ("filterable", "true")]) = true ∧
    outNameOf (StructField.mk "A" Kind.kstring "" ""
        [("json", ""), ("filterable", "true")]) = "" ∧
    FieldType (Entity.mk "E" [StructField.mk "A" Kind.kstring "" ""
        [("json", ""), ("filterable", "true")]] "desc") =
      Except.ok (GqlObject.mk "e" "desc" [], []) ∧
    lookupA ([] : List (String × FilterCode)) "" = none :=
  ⟨rfl, rfl, rfl, rfl, rfl⟩

/-- A filterable int-kind field named `Age`. -/
def exAgeField : StructField :=
  StructField.mk "Age" Kind.kint "" "" [("filterable", "true")]

/-- An entity whose instance has only the `Age` field. -/
def exPersonEntity : Entity := Entity.mk "Person" [exAgeField] "a person"

/-- Witness for C3 (amended) on a concrete entity with one filterable
integer field. -/
theorem filters_characterization_witness :
    FieldType exPersonEntity =
      Except.ok (GqlObject.mk "person" "a person"
          [("age", ScalarGqlField.mk "age" GqlScalar.gqlInt)],
        [("age", FilterCode.filterInt)]) ∧
    (((lookupA [("age", FilterCode.filterInt)] "age").isSome = true ↔
      ∃ f, f ∈ exPersonEntity.instanceFields ∧ ∃ t, scalarClassOf f = some t ∧
        filterableOf f = true ∧ outNameOf f = "age" ∧ "age" ≠ "") ∧
    (∀ fc, lookupA [("age", FilterCode.filterInt)] "age" = some fc →
      ∃ f, f ∈ exPersonEntity.instanceFields ∧ ∃ t, scalarClassOf f = some t ∧
        filterableOf f = true ∧ outNameOf f = "age" ∧ fc = filterFor t)) :=
  ⟨rfl, filters_characterization exPersonEntity
    (GqlObject.mk "person" "a person"
      [("age", ScalarGqlField.mk "age" GqlScalar.gqlInt)])
    [("age", FilterCode.filterInt)] "age" rfl⟩

/-! ## C4: struct/slice kinds and the object returned by FieldType -/

/-- C4 (amended): a struct- or slice-kind field whose full type is not
`time.Time` is rejected by the scalar classifier with
`errorNotSimpleFieldType` and skipped by `FieldType`; consequently every
field of the object `FieldType` returns traces back to a scalar-classified
struct field, never to a struct- or slice-kind field other than `time.Time`. -/
theorem struct_slice_skipped_by_fieldtype (entity : Entity) (obj : GqlObject)
    (filters : List (String × FilterCode)) (f : StructField) (n : String)
    (g : ScalarGqlField)
    (hk : f.typeKind = Kind.kstruct ∨ f.typeKind = Kind.kslice)
    (hft : fullTypeOf f ≠ "time.Time") :
    field f = Except.error FieldError.errorNotSimpleFieldType ∧
    (FieldType entity = Except.ok (obj, filters) →
      lookupA obj.fields n = some g →
      ∃ f', f' ∈ entity.instanceFields ∧ scalarClassOf f' = some g.ty ∧
        ¬((f'.typeKind = Kind.kstruct ∨ f'.typeKind = Kind.kslice) ∧
          fullTypeOf f' ≠ "time.Time")) := by
  constructor
  · unfold field
    rw [classifyKind_struct_slice _ _ _ hk hft]
  · intro h hlk
    unfold FieldType at h
    cases hloop : fieldTypeLoop entity.instanceFields [] [] with
    | error e =>
      rw [hloop] at h
      exact Except.noConfusion h
    | ok p =>
      obtain ⟨fs, fl⟩ := p
      rw [hloop] at h
      simp only [Except.ok.injEq, Prod.mk.injEq] at h
      obtain ⟨hobj, hfl⟩ := h
      subst hobj
      have hlk' : lookupA fs n = some g := hlk
      rcases fieldTypeLoop_fields_sound _ _ _ _ _ _ _ hloop hlk' with
        h0 | ⟨f', hfm, ha⟩
      · exact absurd h0 (by simp [lookupA])
      · obtain ⟨d, hok, hd, hgn, hne⟩ := ha
        obtain ⟨t, fc', hc, hdEq⟩ := field_ok_elim f' d hok
        have hdfield : d.field = some (ScalarGqlField.mk (outNameOf f') t) := by
          rw [hdEq]
        rw [hdfield] at hd
        injection hd with hd
        refine ⟨f', hfm, ?_, ?_⟩
        · rw [← hd]
          show scalarClassOf f' = some t
          unfold scalarClassOf
          rw [hc]
        · rintro ⟨hk', hft'⟩
          rw [classifyKind_struct_slice _ _ _ hk' hft'] at hc
          exact Except.noConfusion hc

/-- C4 counterexample: the struct-kind field `time.Time` is not rejected by
the scalar classifier — it succeeds as a `graphql.DateTime` scalar — and the
object `FieldType` returns does contain a field produced from it, against
the claim's "no field of kind Struct or Slice ever appears". -/
theorem struct_slice_skipped_cex :
    (StructField.mk "CreatedAt" Kind.kstruct "time" "Time" []).typeKind =
      Kind.kstruct ∧
    field (StructField.mk "CreatedAt" Kind.kstruct "time" "Time" []) =
      Except.ok (fieldDefinition.mk FilterCode.filterNone
        (some (ScalarGqlField.mk "createdat" GqlScalar.gqlDateTime))) ∧
    (Except.ok (fieldDefinition.mk FilterCode.filterNone
        (some (ScalarGqlField.mk "createdat" GqlScalar.gqlDateTime))) ≠
      (Except.error FieldError.errorNotSimpleFieldType :
        Except FieldError fieldDefinition)) ∧
    FieldType (Entity.mk "Doc"
        [StructField.mk "CreatedAt" Kind.kstruct "time" "Time" []] "a doc") =
      Except.ok (GqlObject.mk "doc" "a doc"
        [("createdat", ScalarGqlField.mk "createdat" GqlScalar.gqlDateTime)],
        []) :=
  ⟨rfl, rfl, fun hcon => Except.noConfusion hcon, rfl⟩

/-- A slice-kind field named `Tags`. -/
def exTagsField : StructField := StructField.mk "Tags" Kind.kslice "" "" []

/-- A string-kind field named `Title`. -/
def exTitleField : StructField := StructField.mk "Title" Kind.kstring "" "" []

/-- An entity with one slice-kind and one string-kind field. -/
def exDocEntity : Entity :=
  Entity.mk "Doc" [exTagsField, exTitleField] "a document"

/-- Witness for C4 (amended): the slice-kind `Tags` field is rejected and
skipped, and the single object field of `FieldType exDocEntity` traces to the
scalar `Title` field. -/
theorem struct_slice_skipped_by_fieldtype_witness :
    (exTagsField.typeKind = Kind.kstruct ∨ exTagsField.typeKind = Kind.kslice) ∧
    fullTypeOf exTagsField ≠ "time.Time" ∧
    field exTagsField = Except.error FieldError.errorNotSimpleFieldType ∧
    (∃ f', f' ∈ exDocEntity.instanceFields ∧
      scalarClassOf f' = some (ScalarGqlField.mk "title" GqlScalar.gqlString).ty ∧
      ¬((f'.typeKind = Kind.kstruct ∨ f'.typeKind = Kind.kslice) ∧
        fullTypeOf f' ≠ "time.Time")) :=
  ⟨Or.inr rfl, by decide,
   (struct_slice_skipped_by_fieldtype exDocEntity
     (GqlObject.mk "doc" "a document"
       [("title", ScalarGqlField.mk "title" GqlScalar.gqlString)])
     [] exTagsField "title" (ScalarGqlField.mk "title" GqlScalar.gqlString)
     (Or.inr rfl) (by decide)).1,
   (struct_slice_skipped_by_fieldtype exDocEntity
     (GqlObject.mk "doc" "a document"
       [("title", ScalarGqlField.mk "title" GqlScalar.gqlString)])
     [] exTagsField "title" (ScalarGqlField.mk "title" GqlScalar.gqlString)
     (Or.inr rfl) (by decide)).2 rfl rfl⟩

end GocipeGraphql
